import Mathlib

/-!
Verification of the T20 first-innings score-predictor pipeline: a shallow
embedding of the batch feature engineering
(`src/features/feature_engineering.py`, `engineer_and_split`), of the Flask
serving layer (`flask_app/app.py`, `predict`) and of the model-promotion
script (`scripts/promote_model.py`, `main`), together with proofs of the
specification claims about them.  Python ints are modelled by `ℤ`, machine
floats by `ℚ` (exact rational arithmetic), pandas NaN cells and dropped rows
by `Option`, raised exceptions by `Except`/`Option`, and the model registry
by a list of version records.
-/

namespace Cricket

/-! ### Rounding and truncation primitives shared by both layers -/

/-- Floor of a rational number, computed on the normalised numerator and
denominator.  Agrees with `Int.floor` but written with `Int.fdiv` so that the
kernel can evaluate it on concrete inputs. -/
def ratFloor (q : ℚ) : ℤ := Int.fdiv q.num q.den

/-- Round-half-to-even (banker) rounding of a rational to an integer: the
rounding performed by the Python built-in `round` and by `pandas.Series.round`. -/
def roundHalfEven (q : ℚ) : ℤ :=
  if q - ratFloor q < 1/2 then ratFloor q
  else if 1/2 < q - ratFloor q then ratFloor q + 1
  else if ratFloor q % 2 = 0 then ratFloor q else ratFloor q + 1

/-- Rounding to two decimal places, as in the Python `round(x, 2)` and the
pandas `.round(2)`. -/
def round2 (q : ℚ) : ℚ := (roundHalfEven (q * 100) : ℚ) / 100

/-- The Python `int()` conversion applied to a float: truncation toward zero. -/
def pyInt (q : ℚ) : ℤ := if 0 ≤ q then ratFloor q else -(ratFloor (-q))

/-! ### Batch feature engineering (`engineer_and_split`)

One row of the interim delivery table, restricted to the columns the feature
computations read.  `over`/`ball_no` are the two integer components of the
`ball` label "over.ball_no"; `player_dismissed` is the raw dismissal marker
("0" when nobody was dismissed on the ball).  A value of this type is one
delivery of one match; a match is a `List Delivery` in delivery order, which
is exactly one per-match group of the source `groupby` on the match id. -/

structure Delivery where
  over : ℤ
  ball_no : ℤ
  runs : ℤ
  player_dismissed : String
deriving DecidableEq

/-- Placeholder delivery used only to totalise list indexing. -/
def defaultDelivery : Delivery := ⟨0, 0, 0, "0"⟩

/-- Column `current_score` at row `i`: cumulative sum of `runs` within the
match (the grouped `cumsum` of the `runs` column). -/
def currentScore (ds : List Delivery) (i : ℕ) : ℤ :=
  ((ds.take (i+1)).map (fun d => d.runs)).sum

/-- Column `balls_bowled` at row `i`: `over * 6 + ball_no`. -/
def ballsBowled (ds : List Delivery) (i : ℕ) : ℤ :=
  (ds.getD i defaultDelivery).over * 6 + (ds.getD i defaultDelivery).ball_no

/-- Column `balls_left` at row `i`: `(120 - balls_bowled).clip(lower=0)`. -/
def ballsLeft (ds : List Delivery) (i : ℕ) : ℤ :=
  max (120 - ballsBowled ds i) 0

/-- Encoding of the dismissal marker: 0 when the marker is the string "0",
else 1. -/
def dismissedFlag (d : Delivery) : ℤ :=
  if d.player_dismissed = "0" then 0 else 1

/-- Cumulative wickets fallen up to and including row `i`
(the grouped `cumsum` of the dismissal column after the 0/1 encoding). -/
def wicketsFallen (ds : List Delivery) (i : ℕ) : ℤ :=
  ((ds.take (i+1)).map dismissedFlag).sum

/-- Column `wickets_left` at row `i`: `10 - player_dismissed` (no clamping). -/
def wicketsLeft (ds : List Delivery) (i : ℕ) : ℤ :=
  10 - wicketsFallen ds i

/-- Column `crr` at row `i`: `(current_score * 6 / balls_bowled).round(2)`. -/
def crrBatch (ds : List Delivery) (i : ℕ) : ℚ :=
  round2 (((currentScore ds i : ℚ) * 6) / (ballsBowled ds i : ℚ))

/-- Column `last_five` at row `i`: `runs.rolling(window=30).sum()` within the
match.  With the pandas default `min_periods = window`, the first 29 rows of each
match are NaN (`none`); from row 29 on it is the sum of the runs of the last
30 deliveries, i.e. of rows `i-29 .. i`. -/
def lastFive (ds : List Delivery) (i : ℕ) : Option ℤ :=
  if 29 ≤ i then some ((((ds.take (i+1)).drop (i+1-30)).map (fun d => d.runs)).sum)
  else none

/-- Indices of the rows of one match that survive the final
`final.dropna(inplace=True)`: in this embedding `last_five` is the only
column that can be null, so a row is kept iff its rolling window was full. -/
def rowIndices (ds : List Delivery) : List ℕ :=
  (List.range ds.length).filter (fun i => (lastFive ds i).isSome)

/-- Numeric feature vector of one engineered row, in the column order
`current_score, balls_left, wickets_left, crr, last_five` shared by the batch
output table and the model input frame of the serving layer. -/
structure FeatureVec where
  current_score : ℤ
  balls_left : ℤ
  wickets_left : ℤ
  crr : ℚ
  last_five : ℤ
deriving DecidableEq

/-- Numeric part of the engineered feature row at index `i`, `none` when the
row is dropped because its `last_five` cell is null. -/
def batchRow (ds : List Delivery) (i : ℕ) : Option FeatureVec :=
  (lastFive ds i).map (fun lf =>
    ⟨currentScore ds i, ballsLeft ds i, wicketsLeft ds i, crrBatch ds i, lf⟩)

/-! ### Serving layer, form path (`flask_app/app.py`, `predict`) -/

/-- Serving-side `balls_bowled = int(overs_done * 6)`. -/
def servingBallsBowledVal (overs : ℚ) : ℤ := pyInt (overs * 6)

/-- Serving-side `balls_left = max(120 - balls_bowled, 0)`. -/
def servingBallsLeftVal (overs : ℚ) : ℤ := max (120 - servingBallsBowledVal overs) 0

/-- Serving-side `wickets_left = max(10 - wickets_out, 0)`. -/
def servingWicketsLeftVal (wickets : ℤ) : ℤ := max (10 - wickets) 0

/-- Serving-side `crr = round(current_score / overs_done, 2) if overs_done > 0
else 0.0`. -/
def servingCrrVal (cs : ℤ) (overs : ℚ) : ℚ :=
  if 0 < overs then round2 ((cs : ℚ) / overs) else 0

/-- Numeric feature vector the form path derives from the validated human
inputs (current score, overs done, wickets out, runs in the last five overs). -/
def servingVec (cs : ℤ) (overs : ℚ) (wickets : ℤ) (lf : ℤ) : FeatureVec :=
  ⟨cs, servingBallsLeftVal overs, servingWicketsLeftVal wickets, servingCrrVal cs overs, lf⟩

/-- Raw form fields as parsed by `request.form.get(..., type=...)`: a field
that is absent or fails the int/float conversion is `none`. -/
structure RawForm where
  current_score : Option ℤ
  overs : Option ℚ
  wickets : Option ℤ
  last_five : Option ℤ
deriving DecidableEq

/-- The validation chain of the form path, returning the first error message
(`error_message`) or `none` when all checks pass. -/
def validateForm (rf : RawForm) : Option String :=
  match rf.current_score with
  | none => some "Current score is required and must be a number."
  | some cs =>
    if cs < 0 then some "Current score must be 0 or a positive integer."
    else match rf.overs with
    | none => some "Overs done is required and must be a number."
    | some o =>
      if o < 5 ∨ 19 < o then some "Overs done must be between 5 and 19 (inclusive)."
      else match rf.wickets with
      | none => some "Wickets out is required and must be a whole number."
      | some w =>
        if w < 0 ∨ 9 < w then some "Wickets out must be a whole number between 0 and 9."
        else match rf.last_five with
        | none => some "Runs in last 5 overs is required and must be a number."
        | some lf =>
          if lf < 0 ∨ cs < lf then
            some "Runs in last 5 overs must be non-negative and no more than the current score."
          else none

/-- Model input row built by the form path: the three categorical columns are
forwarded exactly as obtained from the form (absent stays absent), the five
numeric columns are the derived feature vector. -/
structure FormRow where
  batting_team : Option String
  bowling_team : Option String
  city : Option String
  fv : FeatureVec
deriving DecidableEq

/-- What the rendered page carries back: the prediction (`result`) and the
inline `error_message`, both optional. -/
structure FormResponse where
  result : Option ℤ
  error_message : Option String
deriving DecidableEq

/-- The form branch of the `/predict` handler.  `m` is the `predict` method
of the loaded model composed with the `DataFrame` construction: `.error e` models any
exception raised on the prediction path, which the handler catches and turns
into the inline string `"Prediction error: " ++ e`; `.ok p` models a
successful prediction, reported as `int(round(p))`.  The model is only
invoked when validation produced no error message. -/
def predictFormHandler (m : FormRow → Except String ℚ)
    (bt bw ct : Option String) (rf : RawForm) : FormResponse :=
  match validateForm rf with
  | some e => { result := none, error_message := some e }
  | none =>
    match rf.current_score, rf.overs, rf.wickets, rf.last_five with
    | some cs, some o, some w, some lf =>
      match m { batting_team := bt, bowling_team := bw, city := ct,
                fv := servingVec cs o w lf } with
      | .ok p => { result := some (roundHalfEven p), error_message := none }
      | .error e => { result := none, error_message := some ("Prediction error: " ++ e) }
    | _, _, _, _ => { result := none, error_message := none }

/-! ### Serving layer, JSON path -/

/-- The hard-coded team list of the serving layer. -/
def TEAMS : List String :=
  ["Australia", "India", "Bangladesh", "New Zealand", "South Africa",
   "England", "West Indies", "Pakistan", "Sri Lanka"]

/-- JSON payload of a `/predict` request: every key may be absent.  JSON
numbers are modelled by `ℚ`; the handler forwards them without conversion. -/
structure JsonPayload where
  batting_team : Option String
  bowling_team : Option String
  city : Option String
  current_score : Option ℚ
  balls_left : Option ℚ
  wickets_left : Option ℚ
  crr : Option ℚ
  last_five : Option ℚ
deriving DecidableEq

/-- Model input row built by the JSON path. -/
structure JsonRow where
  batting_team : String
  bowling_team : String
  city : String
  current_score : ℚ
  balls_left : ℚ
  wickets_left : ℚ
  crr : ℚ
  last_five : ℚ
deriving DecidableEq

/-- HTTP outcome of the JSON path: `ok` is a 200 with
`{"predicted_score": n}`, `badRequest` a 400 with an error body,
`serverError` a 500 with an error body. -/
inductive JsonResponse where
  | ok (predicted_score : ℤ)
  | badRequest (err : String)
  | serverError (err : String)
deriving DecidableEq

/-- Categorical defaulting and row construction of the JSON path:
`payload.get("batting_team", TEAMS[0])`,
`payload.get("bowling_team", TEAMS[1] if TEAMS[1] != batting else TEAMS[0])`,
`payload.get("city", CITIES[0])` (the first eligible city, a deploy-time
artifact, is the parameter `city0`). -/
def jsonRowOf (city0 : String) (bt bw ct : Option String)
    (cs bl wl cr lf : ℚ) : JsonRow :=
  let batting := bt.getD (TEAMS.getD 0 "")
  { batting_team := batting
    bowling_team := bw.getD (if TEAMS.getD 1 "" ≠ batting then TEAMS.getD 1 "" else TEAMS.getD 0 "")
    city := ct.getD city0
    current_score := cs, balls_left := bl, wickets_left := wl, crr := cr, last_five := lf }

/-- The JSON branch of the `/predict` handler.  The five numeric keys are
read with `payload[...]`; the first missing one raises `KeyError`, answered
with a 400 `"Missing field ..."` body (Python renders the key with quotes
around it; the quotes are elided here).  The model call is wrapped in
`try/except`: an exception becomes a 500 with the exception text. -/
def predictJsonHandler (city0 : String) (m : JsonRow → Except String ℚ)
    (p : JsonPayload) : JsonResponse :=
  match p.current_score with
  | none => .badRequest "Missing field current_score"
  | some cs =>
    match p.balls_left with
    | none => .badRequest "Missing field balls_left"
    | some bl =>
      match p.wickets_left with
      | none => .badRequest "Missing field wickets_left"
      | some wl =>
        match p.crr with
        | none => .badRequest "Missing field crr"
        | some cr =>
          match p.last_five with
          | none => .badRequest "Missing field last_five"
          | some lf =>
            match m (jsonRowOf city0 p.batting_team p.bowling_team p.city cs bl wl cr lf) with
            | .ok pred => .ok (roundHalfEven pred)
            | .error e => .serverError e

/-! ### Model promotion (`scripts/promote_model.py`) -/

/-- One registered version of the model: its integer version number and the
aliases currently attached to it. -/
structure ModelVersion where
  version : ℤ
  aliases : List String
deriving DecidableEq

/-- The registry state for one model name. -/
abbrev Registry := List ModelVersion

/-- String prefix test, the semantics of the Python `str.startswith` (written
on the character lists so concrete instances evaluate). -/
def strStartsWith (s p : String) : Bool := p.data.isPrefixOf s.data

/-- Does the version carry some `staging*` alias
(`any(a.startswith("staging") for a in aliases)`)? -/
def hasStagingAlias (mv : ModelVersion) : Bool :=
  mv.aliases.any (fun a => strStartsWith a "staging")

/-- The staging candidates, in registry order. -/
def stagingVersions (r : Registry) : Registry := r.filter hasStagingAlias

/-- Left fold computing the maximum of `v :: vs`, mirroring the Python `max`
with an integer key. -/
def listMax (v : ℤ) (vs : List ℤ) : ℤ :=
  vs.foldl (fun acc x => if acc < x then x else acc) v

/-- The version number the promotion selects:
`max(staging_versions, key=lambda mv: int(mv.version)).version`
(0 is a dummy for the empty case, unreachable behind the candidate check). -/
def chosenVersion (r : Registry) : ℤ :=
  match (stagingVersions r).map (fun mv => mv.version) with
  | [] => 0
  | v :: vs => listMax v vs

/-- Effect of `delete_registered_model_alias(name, alias)` on the state: the
alias disappears from every version holding it. -/
def removeAlias (al : String) (r : Registry) : Registry :=
  r.map (fun mv => { mv with aliases := mv.aliases.filter (fun a => a != al) })

/-- Effect of `set_registered_model_alias(name, alias, version)` on the
chosen version: the alias is attached to it (other versions are left alone;
stripping the old holder is the separate, best-effort, delete step). -/
def setAliasAdd (al : String) (v : ℤ) (r : Registry) : Registry :=
  r.map (fun mv => if mv.version = v then { mv with aliases := mv.aliases ++ [al] } else mv)

/-- The mutation a successful promotion performs once a candidate is chosen:
strip `production` everywhere, then attach it to the chosen version. -/
def promoteAux (c : ℤ) (r : Registry) : Registry :=
  setAliasAdd "production" c (removeAlias "production" r)

/-- Per-version effect of `promoteAux`: the `production` alias is removed
and, on the chosen version, re-attached at the end. -/
def promoteStep (c : ℤ) (mv : ModelVersion) : ModelVersion :=
  if mv.version = c
  then { mv with aliases := mv.aliases.filter (fun a => a != "production") ++ ["production"] }
  else { mv with aliases := mv.aliases.filter (fun a => a != "production") }

/-- The promotion script.  `deleteOk` is the outcome of the guarded
`delete_registered_model_alias` call in step 2: when it throws
(`deleteOk = false`) the exception is only printed as a warning and the
script proceeds to step 3 with the old alias still in place.  The
no-candidate `ValueError` of step 1 is raised before any registry mutation,
so the `.error` result corresponds to an unchanged registry. -/
def promote (deleteOk : Bool) (r : Registry) : Except String Registry :=
  if stagingVersions r = [] then
    .error "No model version has an alias starting with staging"
  else
    let c := chosenVersion r
    let r1 := if deleteOk then removeAlias "production" r else r
    .ok (setAliasAdd "production" c r1)

/-! ### Concrete instances used by witnesses and counterexamples -/

/-- A 60-delivery match state: 25 twos then 5 dot balls then 30 singles, a
wicket on deliveries 7, 22, 37 and 52; ball labels run `0.1 .. 9.6`.  After
it: score 80, 10.0 overs done, 4 wickets out, 30 runs in the last five
overs. -/
def demoMatch : List Delivery :=
  (List.range 60).map (fun j =>
    ⟨(j : ℤ) / 6, (j : ℤ) % 6 + 1,
     if j < 25 then 2 else if j < 30 then 0 else 1,
     if j % 15 = 7 then "caught" else "0"⟩)

/-- A 30-delivery list whose last delivery carries the label `19.7` (a
seventh ball of the final over, as wides and no-balls produce in the raw
data), so its row has `balls_bowled = 121`. -/
def overflowMatch : List Delivery :=
  (List.range 30).map (fun j =>
    if j = 29 then ⟨19, 7, 1, "0"⟩ else ⟨15, 1, 1, "0"⟩)

/-- A 10-delivery match start: ten singles, no dismissals. -/
def shortMatch : List Delivery :=
  (List.range 10).map (fun j => ⟨(j : ℤ) / 6, (j : ℤ) % 6 + 1, 1, "0"⟩)

/-- Registry with two staging candidates and one production holder. -/
def demoReg : Registry :=
  [⟨1, ["staging12"]⟩, ⟨2, ["staging99"]⟩, ⟨3, ["production"]⟩]

/-- Registry whose only version has no staging alias. -/
def demoRegNoStaging : Registry := [⟨3, ["production"]⟩]


/-! ### Helper lemmas -/

theorem intFdiv_one (k : ℤ) : Int.fdiv k 1 = k := by
  rcases k with (_ | n) | n
  · rfl
  · show Int.ofNat ((n+1) / 1) = Int.ofNat (n+1)
    rw [Nat.div_one]
  · show Int.negSucc (n / 1) = Int.negSucc n
    rw [Nat.div_one]

theorem ratFloor_intCast (k : ℤ) : ratFloor (k : ℚ) = k := by
  unfold ratFloor
  rw [Rat.num_intCast, Rat.den_intCast]
  exact intFdiv_one k

theorem pyInt_intCast (k : ℤ) : pyInt (k : ℚ) = k := by
  unfold pyInt
  split_ifs with h
  · exact ratFloor_intCast k
  · rw [show (-(k : ℚ)) = ((-k : ℤ) : ℚ) by push_cast; ring, ratFloor_intCast]
    ring

/-- Characterisation of a passing validation chain. -/
theorem validateForm_eq_none_iff (cs w lf : ℤ) (o : ℚ) :
    validateForm ⟨some cs, some o, some w, some lf⟩ = none ↔
      (0 ≤ cs ∧ 5 ≤ o ∧ o ≤ 19 ∧ 0 ≤ w ∧ w ≤ 9 ∧ 0 ≤ lf ∧ lf ≤ cs) := by
  unfold validateForm
  dsimp only
  split_ifs with h1 h2 h3 h4
  · simp only [reduceCtorEq, false_iff]
    intro hc
    exact absurd h1 (not_lt.2 hc.1)
  · simp only [reduceCtorEq, false_iff]
    intro hc
    rcases h2 with h | h
    · exact absurd h (not_lt.2 hc.2.1)
    · exact absurd h (not_lt.2 hc.2.2.1)
  · simp only [reduceCtorEq, false_iff]
    intro hc
    rcases h3 with h | h
    · exact absurd h (not_lt.2 hc.2.2.2.1)
    · exact absurd h (not_lt.2 hc.2.2.2.2.1)
  · simp only [reduceCtorEq, false_iff]
    intro hc
    rcases h4 with h | h
    · exact absurd h (not_lt.2 hc.2.2.2.2.2.1)
    · exact absurd h (not_lt.2 hc.2.2.2.2.2.2)
  · push_neg at h1 h2 h3 h4
    simp only [true_iff]
    exact ⟨h1, h2.1, h2.2, h3.1, h3.2, h4.1, h4.2⟩

/-! ### Claim C1 -/

/-- C1.  Round trip between batch and serving feature derivation: for every
match state (a delivery list `ds` and a row index `i`) whose engineered row
exists (`last_five` is non-null), at least one ball has been bowled and at
most 10 wickets have fallen, the numeric feature vector the form path of the
serving layer derives from the corresponding six human inputs (current score,
`overs_done = balls_bowled / 6` overs completed expressed as a decimal,
wickets out, runs in the last five overs) equals the feature row the batch
engineer produces.  In particular score 80, 10.0 overs, 4 wickets and
last-five 30 give `(80, 60, 6, 8.0, 30)` on both paths (see the witness). -/
theorem C1_feature_roundtrip (ds : List Delivery) (i : ℕ) (lf : ℤ)
    (hlf : lastFive ds i = some lf)
    (hb : 0 < ballsBowled ds i)
    (hw : wicketsFallen ds i ≤ 10) :
    batchRow ds i =
      some (servingVec (currentScore ds i) ((ballsBowled ds i : ℚ) / 6)
             (wicketsFallen ds i) lf) := by
  unfold batchRow servingVec
  rw [hlf, Option.map_some']
  have hb6 : ((ballsBowled ds i : ℚ) / 6) * 6 = (ballsBowled ds i : ℚ) :=
    div_mul_cancel₀ _ (by norm_num)
  congr 1
  refine FeatureVec.mk.injEq _ _ _ _ _ _ _ _ _ _ |>.mpr ⟨rfl, ?_, ?_, ?_, rfl⟩
  · unfold ballsLeft servingBallsLeftVal servingBallsBowledVal
    rw [hb6, pyInt_intCast]
  · unfold wicketsLeft servingWicketsLeftVal
    exact (max_eq_left (by omega)).symm
  · unfold crrBatch servingCrrVal
    have hbq : (0 : ℚ) < (ballsBowled ds i : ℚ) := by exact_mod_cast hb
    rw [if_pos (by positivity), div_div_eq_mul_div]

set_option maxRecDepth 1000000 in
/-- Witness for C1 at the concrete state of the claim: score 80, 10.0 overs
(60 balls), 4 wickets out, 30 runs in the last five overs; both paths give
the feature vector `(80, 60, 6, 8.0, 30)`. -/
theorem C1_feature_roundtrip_witness :
    batchRow demoMatch 59 = some (servingVec 80 10 4 30) ∧
    servingVec 80 10 4 30 = ⟨80, 60, 6, 8, 30⟩ := by
  constructor
  · have h := C1_feature_roundtrip demoMatch 59 30
      (by with_unfolding_all decide) (by with_unfolding_all decide)
      (by with_unfolding_all decide)
    have e1 : currentScore demoMatch 59 = 80 := by with_unfolding_all decide
    have e2 : ballsBowled demoMatch 59 = 60 := by with_unfolding_all decide
    have e3 : wicketsFallen demoMatch 59 = 4 := by with_unfolding_all decide
    rw [e1, e2, e3] at h
    rw [show ((60 : ℤ) : ℚ) / 6 = 10 by norm_num] at h
    exact h
  · with_unfolding_all decide

/-! ### Claim C2 -/

/-- C2 counterexample.  The claim quantifies over all rows of the engineered
table for any input delivery table, but a delivery labelled `19.7` (a seventh
ball of the last over, as the raw data contains for overs with extras) has
`balls_bowled = 121`, and clipping makes `balls_left = 0`, so the row sums to
121, not 120.  The `last_five` cell of the row is non-null, so it survives the NA drop
and is a genuine row of the engineered output. -/
theorem C2_counterexample :
    lastFive overflowMatch 29 ≠ none ∧
    ballsLeft overflowMatch 29 + ballsBowled overflowMatch 29 = 121 ∧
    ballsLeft overflowMatch 29 + ballsBowled overflowMatch 29 ≠ 120 := by
  with_unfolding_all decide

/-- C2 (amended).  For every row of the engineered table:
`balls_left + balls_bowled = 120` holds whenever `balls_bowled ≤ 120` (in
general the sum is `max 120 balls_bowled`, because `balls_left` is clipped at
0 and a raw ball label can exceed `19.6`), and
`wickets_left + wickets_fallen = 10` holds unconditionally. -/
theorem C2_row_invariants (ds : List Delivery) (i : ℕ) :
    (ballsBowled ds i ≤ 120 → ballsLeft ds i + ballsBowled ds i = 120) ∧
    ballsLeft ds i + ballsBowled ds i = max 120 (ballsBowled ds i) ∧
    wicketsLeft ds i + wicketsFallen ds i = 10 := by
  unfold ballsLeft wicketsLeft
  refine ⟨fun h => ?_, ?_, by ring⟩
  · rw [max_eq_left (by omega)]
    ring
  · rcases le_total (ballsBowled ds i) 120 with h | h
    · rw [max_eq_left (by omega), max_eq_left h]
      ring
    · rw [max_eq_right (by omega), max_eq_right h]
      ring

set_option maxRecDepth 1000000 in
/-- Witness for C2 on a row of the demo match (60th delivery: 60 balls
bowled, 4 wickets fallen). -/
theorem C2_row_invariants_witness :
    ballsLeft demoMatch 59 + ballsBowled demoMatch 59 = 120 ∧
    wicketsLeft demoMatch 59 + wicketsFallen demoMatch 59 = 10 :=
  ⟨(C2_row_invariants demoMatch 59).1 (by with_unfolding_all decide),
   (C2_row_invariants demoMatch 59).2.2⟩

/-! ### Claim C3 -/

/-- C3 counterexample.  The claim says that at match start, where fewer than
30 balls have been bowled, the trailing-form feature is a smaller partial sum
rather than null.  With the pandas default `min_periods = window` the code
instead yields NaN on every one of the first 29 rows: after the 10th
delivery of `shortMatch` (10 singles bowled) the claimed partial sum would be
10, but the cell is null and the row is dropped. -/
theorem C3_counterexample :
    9 < shortMatch.length ∧ lastFive shortMatch 9 = none ∧
    9 ∉ rowIndices shortMatch := by
  with_unfolding_all decide

/-- The full rolling window, re-expressed as the indexed slice
`ds[i-29], ..., ds[i]`. -/
theorem take_drop_window (ds : List Delivery) (i : ℕ) (h29 : 29 ≤ i)
    (hi : i < ds.length) :
    (ds.take (i+1)).drop (i+1-30) =
      (List.range 30).map (fun k => ds.getD (i-29+k) defaultDelivery) := by
  apply List.ext_getElem
  · simp only [List.length_drop, List.length_take, List.length_map, List.length_range]
    omega
  · intro n h1 h2
    simp only [List.getElem_drop, List.getElem_take, List.getElem_map, List.getElem_range]
    have hlt : i - 29 + n < ds.length := by
      simp only [List.length_drop, List.length_take, List.length_map,
        List.length_range] at h1 h2
      omega
    rw [List.getD_eq_getElem?_getD, List.getElem?_eq_getElem hlt, Option.getD_some]
    have e : i + 1 - 30 + n = i - 29 + n := by omega
    simp only [e]

/-- C3 (amended).  The trailing-form feature is computed independently per
match in delivery order; on the first 29 rows of a match it is null (no
partial sums are produced) and those rows are dropped from the output, and
from row 29 on it is the sum of the runs of the last 30 deliveries
`ds[i-29] .. ds[i]`, and the row is kept. -/
theorem C3_trailing_form (ds : List Delivery) (i : ℕ) :
    (i < 29 → lastFive ds i = none ∧ i ∉ rowIndices ds) ∧
    (29 ≤ i → i < ds.length →
      lastFive ds i =
        some (((List.range 30).map
          (fun k => (ds.getD (i-29+k) defaultDelivery).runs)).sum) ∧
      i ∈ rowIndices ds) := by
  constructor
  · intro h
    have hnone : lastFive ds i = none := by
      unfold lastFive
      rw [if_neg (by omega)]
    refine ⟨hnone, ?_⟩
    intro hmem
    rw [rowIndices, List.mem_filter] at hmem
    rw [hnone] at hmem
    simp at hmem
  · intro h29 hi
    have hsome : lastFive ds i =
        some (((List.range 30).map
          (fun k => (ds.getD (i-29+k) defaultDelivery).runs)).sum) := by
      unfold lastFive
      rw [if_pos h29, take_drop_window ds i h29 hi, List.map_map]
      rfl
    refine ⟨hsome, ?_⟩
    rw [rowIndices, List.mem_filter, List.mem_range]
    exact ⟨by simpa using hi, by rw [hsome]; rfl⟩

set_option maxRecDepth 1000000 in
/-- Witness for C3: on the demo match, row 5 (6th delivery) is null and
dropped, row 59 carries the last-30 window sum 30 and is kept. -/
theorem C3_trailing_form_witness :
    (lastFive demoMatch 5 = none ∧ 5 ∉ rowIndices demoMatch) ∧
    (lastFive demoMatch 59 =
      some (((List.range 30).map
        (fun k => (demoMatch.getD (59-29+k) defaultDelivery).runs)).sum) ∧
     59 ∈ rowIndices demoMatch) :=
  ⟨(C3_trailing_form demoMatch 5).1 (by decide),
   (C3_trailing_form demoMatch 59).2 (by decide) (by with_unfolding_all decide)⟩

/-! ### Claim C6 -/

set_option maxRecDepth 1000000 in
/-- C6 counterexample.  The claim asserts that the run rate of the serving layer
equals `round2(current_score * 6 / balls_bowled)` whenever
`balls_bowled > 0`.  At the valid form input `overs_done = 10.3`,
`current_score = 80` the serving code computes
`round(80 / 10.3, 2) = 7.77`, while its own
`balls_bowled = int(10.3 * 6) = 61` gives
`round2(80 * 6 / 61) = 7.87`. -/
theorem C6_counterexample :
    0 < servingBallsBowledVal (103/10) ∧
    servingCrrVal 80 (103/10) ≠
      round2 (((80 : ℤ) : ℚ) * 6 / (servingBallsBowledVal (103/10) : ℚ)) := by
  with_unfolding_all decide

/-- C6 (amended).  The batch engineer always computes
`crr = round2(current_score * 6 / balls_bowled)`.  The serving layer computes
`crr = round2(current_score / overs_done)` when `overs_done > 0` and `0.0`
otherwise (in particular when no balls have been bowled because
`overs_done = 0`); this agrees with
`round2(current_score * 6 / balls_bowled)` (for its own
`balls_bowled = int(overs_done * 6)`) precisely in the case that
`overs_done * 6` is a whole number of balls — for fractional inputs such as
`overs_done = 10.3` the two expressions differ (see the counterexample). -/
theorem C6_run_rate :
    (∀ (ds : List Delivery) (i : ℕ),
      crrBatch ds i = round2 (((currentScore ds i : ℚ) * 6) / (ballsBowled ds i : ℚ))) ∧
    (∀ (cs : ℤ) (o : ℚ), o ≤ 0 → servingCrrVal cs o = 0) ∧
    (∀ (cs k : ℤ) (o : ℚ), 0 < o → o * 6 = (k : ℚ) →
      servingCrrVal cs o = round2 (((cs : ℚ) * 6) / (servingBallsBowledVal o : ℚ))) := by
  refine ⟨fun ds i => rfl, fun cs o h => if_neg (not_lt.2 h), fun cs k o ho hk => ?_⟩
  have hbb : servingBallsBowledVal o = k := by
    unfold servingBallsBowledVal
    rw [hk, pyInt_intCast]
  have hk6 : (k : ℚ) = o * 6 := hk.symm
  unfold servingCrrVal
  rw [if_pos ho, hbb, hk6]
  congr 1
  rw [mul_comm o 6, ← div_div]
  congr 1
  rw [mul_div_assoc, div_self (by norm_num : (6:ℚ) ≠ 0), mul_one]

set_option maxRecDepth 1000000 in
/-- Witness for C6 at whole overs: `overs_done = 10.0`, score 80 gives
`crr = 8.0 = round2(80 * 6 / 60)` on the serving path. -/
theorem C6_run_rate_witness :
    servingCrrVal 80 10 = round2 (((80 : ℤ) : ℚ) * 6 / (servingBallsBowledVal 10 : ℚ)) ∧
    servingCrrVal 80 10 = 8 :=
  ⟨C6_run_rate.2.2 80 60 10 (by norm_num) (by norm_num),
   by with_unfolding_all decide⟩

/-! ### Claim C7 -/

/-- C7.  On the form path every submission is validated before prediction:
with all four numeric fields present, any violation of
`current_score ≥ 0`, `overs ∈ [5,19]`, `wickets ∈ [0,9]`,
`0 ≤ last_five ≤ current_score` makes the validation chain return an error
message, the rendered page carries exactly that inline message and no
result, and the response does not depend on the model — the model is never
invoked for the request. -/
theorem C7_form_validation (bt bw ct : Option String) (cs w lf : ℤ) (o : ℚ)
    (hviol : ¬ (0 ≤ cs ∧ 5 ≤ o ∧ o ≤ 19 ∧ 0 ≤ w ∧ w ≤ 9 ∧ 0 ≤ lf ∧ lf ≤ cs)) :
    ∃ e, validateForm ⟨some cs, some o, some w, some lf⟩ = some e ∧
      (∀ m, predictFormHandler m bt bw ct ⟨some cs, some o, some w, some lf⟩ =
        { result := none, error_message := some e }) ∧
      (∀ m₁ m₂, predictFormHandler m₁ bt bw ct ⟨some cs, some o, some w, some lf⟩ =
        predictFormHandler m₂ bt bw ct ⟨some cs, some o, some w, some lf⟩) := by
  have hne : validateForm ⟨some cs, some o, some w, some lf⟩ ≠ none := by
    intro h
    exact hviol ((validateForm_eq_none_iff cs w lf o).1 h)
  rcases hval : validateForm ⟨some cs, some o, some w, some lf⟩ with _ | e
  · exact absurd hval hne
  · refine ⟨e, rfl, fun m => ?_, fun m₁ m₂ => ?_⟩
    · unfold predictFormHandler
      rw [hval]
    · unfold predictFormHandler
      rw [hval]

/-- Witness for C7 at the instance of the claim, `overs_done = 25` (score 100,
3 wickets, 20 in the last five overs): rejected with the inline range error,
model never invoked. -/
theorem C7_form_validation_witness :
    (∃ e, validateForm ⟨some 100, some 25, some 3, some 20⟩ = some e ∧
      (∀ m, predictFormHandler m none none none ⟨some 100, some 25, some 3, some 20⟩ =
        { result := none, error_message := some e }) ∧
      (∀ m₁ m₂, predictFormHandler m₁ none none none ⟨some 100, some 25, some 3, some 20⟩ =
        predictFormHandler m₂ none none none ⟨some 100, some 25, some 3, some 20⟩)) ∧
    validateForm ⟨some 100, some 25, some 3, some 20⟩ =
      some "Overs done must be between 5 and 19 (inclusive)." :=
  ⟨C7_form_validation none none none 100 3 20 25 (by norm_num),
   by with_unfolding_all decide⟩

/-! ### Claim C9 -/

/-- C9.  For every form submission that passes validation the defensive
fallbacks are dead: `wickets_out ≤ 9` makes `10 - wickets_out ≥ 1`, so the
clamp `max(10 - wickets_out, 0)` is the identity, and `overs_done ≥ 5 > 0`,
so the `crr = 0.0` fallback never executes and the run rate is always the
`round(current_score / overs_done, 2)` branch. -/
theorem C9_fallbacks_unreachable (cs w lf : ℤ) (o : ℚ)
    (h : validateForm ⟨some cs, some o, some w, some lf⟩ = none) :
    servingWicketsLeftVal w = 10 - w ∧ 1 ≤ 10 - w ∧
    0 < o ∧ servingCrrVal cs o = round2 ((cs : ℚ) / o) := by
  obtain ⟨_, h5, _, _, h9, _, _⟩ := (validateForm_eq_none_iff cs w lf o).1 h
  have ho : 0 < o := lt_of_lt_of_le (by norm_num) h5
  exact ⟨max_eq_left (by omega), by omega, ho, if_pos ho⟩

/-- Witness for C9 at score 80, 10.0 overs, 4 wickets, last-five 30. -/
theorem C9_fallbacks_unreachable_witness :
    servingWicketsLeftVal 4 = 10 - 4 ∧ (1:ℤ) ≤ 10 - 4 ∧
    (0:ℚ) < 10 ∧ servingCrrVal 80 10 = round2 ((80 : ℚ) / 10) :=
  C9_fallbacks_unreachable 80 4 30 10 (by with_unfolding_all decide)

/-! ### Claim C8 -/

/-- C8.  Every exception raised on the prediction path (modelled by the
model oracle returning `.error e`) is caught rather than propagated: the
JSON path answers with the 500 response carrying the exception text as a
JSON error body, and the form path renders the page with the inline string
`"Prediction error: " ++ e` and no result.  Both handlers are total
functions into their response types, so no request crashes the process. -/
theorem C8_exceptions_caught :
    (∀ (city0 : String) (m : JsonRow → Except String ℚ) (bt bw ct : Option String)
       (cs bl wl cr lf : ℚ) (e : String),
      m (jsonRowOf city0 bt bw ct cs bl wl cr lf) = .error e →
      predictJsonHandler city0 m
        ⟨bt, bw, ct, some cs, some bl, some wl, some cr, some lf⟩ =
        .serverError e) ∧
    (∀ (m : FormRow → Except String ℚ) (bt bw ct : Option String)
       (cs w lf : ℤ) (o : ℚ) (e : String),
      validateForm ⟨some cs, some o, some w, some lf⟩ = none →
      m ⟨bt, bw, ct, servingVec cs o w lf⟩ = .error e →
      predictFormHandler m bt bw ct ⟨some cs, some o, some w, some lf⟩ =
        { result := none, error_message := some ("Prediction error: " ++ e) }) := by
  constructor
  · intro city0 m bt bw ct cs bl wl cr lf e hm
    unfold predictJsonHandler
    dsimp only
    rw [hm]
  · intro m bt bw ct cs w lf o e hval hm
    unfold predictFormHandler
    rw [hval]
    dsimp only
    rw [hm]

/-- Witness for C8 with a model oracle that always raises: the JSON path
returns the 500 body, the form path the inline error, at concrete inputs. -/
theorem C8_exceptions_caught_witness :
    predictJsonHandler "Mirpur" (fun _ => .error "boom")
      ⟨none, none, none, some 80, some 60, some 6, some 8, some 30⟩ =
      .serverError "boom" ∧
    predictFormHandler (fun _ => .error "boom") none none none
      ⟨some 80, some 10, some 4, some 30⟩ =
      { result := none, error_message := some "Prediction error: boom" } :=
  ⟨C8_exceptions_caught.1 "Mirpur" (fun _ => .error "boom")
      none none none 80 60 6 8 30 "boom" rfl,
   C8_exceptions_caught.2 (fun _ => .error "boom") none none none
      80 4 30 10 "boom" (by with_unfolding_all decide) rfl⟩

/-! ### Claim C10 -/

/-- C10.  The JSON predict path performs no range validation: whenever the
five numeric keys are present their values — of any sign and magnitude — are
forwarded to the model unchanged, and the response is entirely determined by
the verdict of the model on that row; if any of the five numeric keys is missing
the handler answers 400 with a `Missing field` error naming the first
missing key; missing categorical keys are not rejected but silently filled
with the defaults (`TEAMS[0] = "Australia"`,
`TEAMS[1] = "India"` unless the batting team already is `"India"`, and the
first eligible city). -/
theorem C10_json_no_validation :
    (∀ (city0 : String) (m : JsonRow → Except String ℚ) (bt bw ct : Option String)
       (cs bl wl cr lf : ℚ),
      ∃ row : JsonRow,
        row.current_score = cs ∧ row.balls_left = bl ∧ row.wickets_left = wl ∧
        row.crr = cr ∧ row.last_five = lf ∧
        predictJsonHandler city0 m ⟨bt, bw, ct, some cs, some bl, some wl, some cr, some lf⟩ =
          (match m row with
           | .ok pred => .ok (roundHalfEven pred)
           | .error e => .serverError e)) ∧
    (∀ (city0 : String) (m : JsonRow → Except String ℚ) (p : JsonPayload),
      p.current_score = none ∨ p.balls_left = none ∨ p.wickets_left = none ∨
        p.crr = none ∨ p.last_five = none →
      ∃ f, predictJsonHandler city0 m p = .badRequest ("Missing field " ++ f) ∧
        f ∈ ["current_score", "balls_left", "wickets_left", "crr", "last_five"]) ∧
    (∀ (city0 : String) (m : JsonRow → Except String ℚ) (cs bl wl cr lf : ℚ),
      ∃ row : JsonRow,
        row.batting_team = "Australia" ∧ row.bowling_team = "India" ∧ row.city = city0 ∧
        predictJsonHandler city0 m ⟨none, none, none, some cs, some bl, some wl, some cr, some lf⟩ =
          (match m row with
           | .ok pred => .ok (roundHalfEven pred)
           | .error e => .serverError e) ∧
        (∀ msg, predictJsonHandler city0 m
          ⟨none, none, none, some cs, some bl, some wl, some cr, some lf⟩ ≠
            .badRequest msg)) := by
  refine ⟨fun city0 m bt bw ct cs bl wl cr lf => ?_, fun city0 m p hmiss => ?_,
    fun city0 m cs bl wl cr lf => ?_⟩
  · exact ⟨jsonRowOf city0 bt bw ct cs bl wl cr lf, rfl, rfl, rfl, rfl, rfl, rfl⟩
  · rcases p with ⟨bt, bw, ct, pcs, pbl, pwl, pcr, plf⟩
    unfold predictJsonHandler
    rcases pcs with _ | cs
    · exact ⟨"current_score", rfl, by simp⟩
    rcases pbl with _ | bl
    · exact ⟨"balls_left", rfl, by simp⟩
    rcases pwl with _ | wl
    · exact ⟨"wickets_left", rfl, by simp⟩
    rcases pcr with _ | cr
    · exact ⟨"crr", rfl, by simp⟩
    rcases plf with _ | lf
    · exact ⟨"last_five", rfl, by simp⟩
    simp at hmiss
  · refine ⟨jsonRowOf city0 none none none cs bl wl cr lf, rfl, rfl, rfl, rfl, ?_⟩
    intro msg
    unfold predictJsonHandler
    dsimp only
    rcases m (jsonRowOf city0 none none none cs bl wl cr lf) with pred | e
    · simp
    · simp

set_option maxRecDepth 1000000 in
/-- Witness for C10: a payload with negative and enormous values and no
categorical keys is still forwarded to the model (here an oracle that echoes
the current score of the row), and dropping `crr` from the same payload yields
the 400 `Missing field crr` response. -/
theorem C10_json_no_validation_witness :
    predictJsonHandler "Mirpur" (fun row => .ok row.current_score)
      ⟨none, none, none, some (-500), some 999999, some (-3), some (-1/4), some 12345⟩ =
      .ok (-500) ∧
    predictJsonHandler "Mirpur" (fun row => .ok row.current_score)
      ⟨none, none, none, some (-500), some 999999, some (-3), none, some 12345⟩ =
      .badRequest "Missing field crr" := by
  constructor
  · obtain ⟨row, hcs, _, _, _, _, hresp⟩ :=
      C10_json_no_validation.1 "Mirpur" (fun row => .ok row.current_score)
        none none none (-500) 999999 (-3) (-1/4) 12345
    rw [hresp]
    dsimp only
    rw [hcs]
    have : roundHalfEven (-500) = -500 := by with_unfolding_all decide
    rw [this]
  · obtain ⟨f, hresp, hf⟩ :=
      C10_json_no_validation.2.1 "Mirpur" (fun row => .ok row.current_score)
        ⟨none, none, none, some (-500), some 999999, some (-3), none, some 12345⟩
        (by simp)
    have : f = "crr" := by
      simp only [List.mem_cons, List.mem_singleton, List.not_mem_nil, or_false] at hf
      rcases hf with h | h | h | h | h
      all_goals first
        | (exact h)
        | (exfalso; revert hresp; rw [h]; with_unfolding_all decide)
    rw [this] at hresp
    exact hresp

/-! ### Promotion helper lemmas -/

theorem listMax_cases : ∀ (vs : List ℤ) (v : ℤ), listMax v vs = v ∨ listMax v vs ∈ vs := by
  intro vs
  induction vs with
  | nil =>
    intro v
    exact Or.inl rfl
  | cons a t ih =>
    intro v
    have hstep : listMax v (a :: t) = listMax (if v < a then a else v) t := rfl
    rcases ih (if v < a then a else v) with h | h
    · rw [hstep, h]
      split_ifs with hlt
      · exact Or.inr (List.mem_cons_self a t)
      · exact Or.inl rfl
    · rw [hstep]
      exact Or.inr (List.mem_cons_of_mem a h)

theorem le_listMax : ∀ (vs : List ℤ) (v : ℤ),
    v ≤ listMax v vs ∧ ∀ x ∈ vs, x ≤ listMax v vs := by
  intro vs
  induction vs with
  | nil =>
    intro v
    exact ⟨le_refl v, by simp⟩
  | cons a t ih =>
    intro v
    have hstep : listMax v (a :: t) = listMax (if v < a then a else v) t := rfl
    have h1 := (ih (if v < a then a else v)).1
    have h2 := (ih (if v < a then a else v)).2
    have hv : v ≤ if v < a then a else v := by
      split_ifs with h
      · exact le_of_lt h
      · exact le_refl v
    have ha : a ≤ if v < a then a else v := by
      split_ifs with h
      · exact le_refl a
      · exact not_lt.1 h
    refine ⟨hstep ▸ le_trans hv h1, ?_⟩
    intro x hx
    rw [hstep]
    rcases List.mem_cons.1 hx with rfl | hx'
    · exact le_trans ha h1
    · exact h2 x hx'

theorem filter_prod_any_staging (A : List String) :
    (A.filter (fun a => a != "production")).any (fun a => strStartsWith a "staging")
      = A.any (fun a => strStartsWith a "staging") := by
  induction A with
  | nil => rfl
  | cons a t ih =>
    by_cases h : a = "production"
    · subst h
      have h2 : strStartsWith "production" "staging" = false := by decide
      simp [List.filter_cons, List.any_cons, h2, ih]
    · simp [List.filter_cons, List.any_cons, bne_iff_ne, h, ih]

theorem filter_prod_idem (A : List String) :
    (A.filter (fun a => a != "production")).filter (fun a => a != "production")
      = A.filter (fun a => a != "production") := by
  induction A with
  | nil => rfl
  | cons a t ih =>
    by_cases h : a = "production"
    · subst h
      simp [List.filter_cons, ih]
    · simp [List.filter_cons, bne_iff_ne, h, ih]

theorem filter_prod_append (A : List String) :
    ((A.filter (fun a => a != "production")) ++ ["production"]).filter
        (fun a => a != "production")
      = A.filter (fun a => a != "production") := by
  rw [List.filter_append, filter_prod_idem]
  simp [List.filter_cons]

theorem prod_not_mem_filter (A : List String) :
    "production" ∉ A.filter (fun a => a != "production") := by
  intro h
  have h2 := List.of_mem_filter h
  simp at h2

theorem promoteStep_version (c : ℤ) (mv : ModelVersion) :
    (promoteStep c mv).version = mv.version := by
  unfold promoteStep
  split_ifs <;> rfl

theorem promoteStep_staging (c : ℤ) (mv : ModelVersion) :
    hasStagingAlias (promoteStep c mv) = hasStagingAlias mv := by
  rcases mv with ⟨v, A⟩
  unfold promoteStep hasStagingAlias
  have h2 : (["production"].any fun a => strStartsWith a "staging") = false := by decide
  split_ifs with h
  · dsimp only
    rw [List.any_append, filter_prod_any_staging, h2, Bool.or_false]
  · dsimp only
    exact filter_prod_any_staging A

theorem promoteStep_idem (c : ℤ) (mv : ModelVersion) :
    promoteStep c (promoteStep c mv) = promoteStep c mv := by
  rcases mv with ⟨v, A⟩
  by_cases h : v = c
  · simp only [promoteStep, h, if_true, eq_self_iff_true]
    rw [filter_prod_append]
  · simp only [promoteStep, if_neg h]
    rw [filter_prod_idem]

theorem promoteAux_eq_map (c : ℤ) (r : Registry) :
    promoteAux c r = r.map (promoteStep c) := by
  unfold promoteAux setAliasAdd removeAlias promoteStep
  rw [List.map_map]
  apply List.map_congr_left
  intro mv _
  rcases mv with ⟨v, A⟩
  by_cases h : v = c <;> simp [Function.comp, h]

theorem stagingVersions_promoteAux (c : ℤ) (r : Registry) :
    stagingVersions (promoteAux c r) = (stagingVersions r).map (promoteStep c) := by
  rw [promoteAux_eq_map]
  unfold stagingVersions
  rw [List.filter_map]
  congr 1
  apply List.filter_congr
  intro mv _
  exact promoteStep_staging c mv

theorem chosenVersion_promoteAux (c : ℤ) (r : Registry) :
    chosenVersion (promoteAux c r) = chosenVersion r := by
  unfold chosenVersion
  rw [stagingVersions_promoteAux, List.map_map,
    show ((fun mv => mv.version) ∘ promoteStep c) = (fun mv : ModelVersion => mv.version)
      from funext (fun mv => promoteStep_version c mv)]

theorem promoteAux_idem (c : ℤ) (r : Registry) :
    promoteAux c (promoteAux c r) = promoteAux c r := by
  rw [promoteAux_eq_map, promoteAux_eq_map, List.map_map]
  apply List.map_congr_left
  intro mv _
  exact promoteStep_idem c mv

theorem promote_true_eq (r : Registry) (hne : stagingVersions r ≠ []) :
    promote true r = .ok (promoteAux (chosenVersion r) r) := by
  unfold promote
  rw [if_neg hne]
  rfl

theorem stagingVersions_promoteAux_ne (c : ℤ) (r : Registry)
    (hne : stagingVersions r ≠ []) : stagingVersions (promoteAux c r) ≠ [] := by
  rw [stagingVersions_promoteAux]
  simpa using hne

theorem chosenVersion_spec (r : Registry) (hne : stagingVersions r ≠ []) :
    (∃ mv ∈ stagingVersions r, mv.version = chosenVersion r) ∧
    ∀ mv ∈ stagingVersions r, mv.version ≤ chosenVersion r := by
  rcases hsv : stagingVersions r with _ | ⟨mv0, rest⟩
  · exact absurd hsv hne
  · unfold chosenVersion
    rw [hsv]
    dsimp only [List.map]
    constructor
    · rcases listMax_cases (rest.map (fun mv => mv.version)) mv0.version with h | h
      · exact ⟨mv0, List.mem_cons_self _ _, h.symm⟩
      · rcases List.mem_map.1 h with ⟨mv, hmv, hv⟩
        exact ⟨mv, List.mem_cons_of_mem _ hmv, hv⟩
    · intro mv hmv
      rcases List.mem_cons.1 hmv with rfl | hmv'
      · exact (le_listMax _ _).1
      · exact (le_listMax _ _).2 _ (List.mem_map_of_mem _ hmv')

theorem promoteAux_production (c : ℤ) (r : Registry) :
    ∀ mv ∈ promoteAux c r, ("production" ∈ mv.aliases ↔ mv.version = c) := by
  intro mv hmv
  rw [promoteAux_eq_map] at hmv
  rcases List.mem_map.1 hmv with ⟨x, hx, rfl⟩
  rcases x with ⟨v, A⟩
  by_cases h : v = c
  · subst h
    have hstep : promoteStep v ⟨v, A⟩ =
        ⟨v, A.filter (fun a => a != "production") ++ ["production"]⟩ := by
      unfold promoteStep
      dsimp only
      rw [if_pos rfl]
    rw [hstep]
    dsimp only
    constructor
    · intro _
      rfl
    · intro _
      exact List.mem_append_right _ (by simp)
  · have hstep : promoteStep c ⟨v, A⟩ = ⟨v, A.filter (fun a => a != "production")⟩ := by
      unfold promoteStep
      dsimp only
      rw [if_neg h]
    rw [hstep]
    dsimp only
    constructor
    · intro hmem
      exact absurd hmem (prod_not_mem_filter A)
    · intro hv
      exact absurd hv h

/-! ### Claim C4 -/

/-- C4.  On a registry with at least one staging candidate (and distinct
version numbers), promotion succeeds and: the selected version number is
that of a staging candidate and is maximal among the staging candidates; in
the resulting registry a version holds `production` exactly when it is the
selected one, so exactly one version holds `production`; and promoting again
with no new staging candidate leaves the state unchanged (the staging
aliases are never touched, so the same candidate is selected and the
rewrite is the identity). -/
theorem C4_promotion (r : Registry) (hne : stagingVersions r ≠ [])
    (hnd : (r.map (fun mv => mv.version)).Nodup) :
    ∃ r', promote true r = .ok r' ∧
      (∃ mv ∈ stagingVersions r, mv.version = chosenVersion r) ∧
      (∀ mv ∈ stagingVersions r, mv.version ≤ chosenVersion r) ∧
      (∀ mv ∈ r', ("production" ∈ mv.aliases ↔ mv.version = chosenVersion r)) ∧
      (∃ mv ∈ r', "production" ∈ mv.aliases ∧
        ∀ mv' ∈ r', "production" ∈ mv'.aliases → mv' = mv) ∧
      promote true r' = .ok r' := by
  refine ⟨promoteAux (chosenVersion r) r, promote_true_eq r hne,
    (chosenVersion_spec r hne).1, (chosenVersion_spec r hne).2,
    promoteAux_production _ r, ?_, ?_⟩
  · obtain ⟨x0, hx0s, hx0v⟩ := (chosenVersion_spec r hne).1
    have hx0r : x0 ∈ r := List.mem_of_mem_filter hx0s
    have hx0m : promoteStep (chosenVersion r) x0 ∈ promoteAux (chosenVersion r) r := by
      rw [promoteAux_eq_map]
      exact List.mem_map_of_mem _ hx0r
    refine ⟨promoteStep (chosenVersion r) x0, hx0m, ?_, ?_⟩
    · exact (promoteAux_production _ r _ hx0m).2 ((promoteStep_version _ x0).trans hx0v)
    · intro mv' hmv' hp
      have hv' : mv'.version = chosenVersion r := (promoteAux_production _ r mv' hmv').1 hp
      have hmv'' := hmv'
      rw [promoteAux_eq_map] at hmv''
      rcases List.mem_map.1 hmv'' with ⟨x', hx', rfl⟩
      have hxx : x' = x0 := by
        apply List.inj_on_of_nodup_map hnd hx' hx0r
        rw [← promoteStep_version (chosenVersion r) x', hv', hx0v]
      rw [hxx]
  · have h1 : stagingVersions (promoteAux (chosenVersion r) r) ≠ [] :=
      stagingVersions_promoteAux_ne _ r hne
    rw [promote_true_eq _ h1, chosenVersion_promoteAux, promoteAux_idem]

set_option maxRecDepth 1000000 in
/-- Witness for C4 on the example shape of the spec, v1 and v2 staging and
v3 production: v2 (the highest staging version) is selected, v3 loses the
mark, v2 gains it, and the result is the concrete registry shown. -/
theorem C4_promotion_witness :
    (∃ r', promote true demoReg = .ok r' ∧
      (∃ mv ∈ stagingVersions demoReg, mv.version = chosenVersion demoReg) ∧
      (∀ mv ∈ stagingVersions demoReg, mv.version ≤ chosenVersion demoReg) ∧
      (∀ mv ∈ r', ("production" ∈ mv.aliases ↔ mv.version = chosenVersion demoReg)) ∧
      (∃ mv ∈ r', "production" ∈ mv.aliases ∧
        ∀ mv' ∈ r', "production" ∈ mv'.aliases → mv' = mv) ∧
      promote true r' = .ok r') ∧
    promote true demoReg =
      .ok [⟨1, ["staging12"]⟩, ⟨2, ["staging99", "production"]⟩, ⟨3, []⟩] ∧
    chosenVersion demoReg = 2 :=
  ⟨C4_promotion demoReg (by with_unfolding_all decide) (by with_unfolding_all decide),
   by with_unfolding_all rfl, by with_unfolding_all decide⟩

/-! ### Claim C5 -/

/-- C5.  Failure semantics of promotion: (a) with no staging candidate the
script raises the `ValueError` before any registry mutation, so the whole
promotion aborts with the registry unchanged — for either outcome of the
later delete step; (b) when a candidate exists but deleting the old
`production` alias fails (`deleteOk = false`), the exception is only printed
as a warning and the script continues: the result is exactly
`set_registered_model_alias` applied to the untouched registry, the chosen
candidate does hold `production` afterwards, and every version that held
`production` before still holds it (the demotion was skipped, not rolled
back). -/
theorem C5_failure_semantics :
    (∀ (deleteOk : Bool) (r : Registry), stagingVersions r = [] →
      promote deleteOk r = .error "No model version has an alias starting with staging") ∧
    (∀ r : Registry, stagingVersions r ≠ [] →
      promote false r = .ok (setAliasAdd "production" (chosenVersion r) r) ∧
      (∃ mv ∈ setAliasAdd "production" (chosenVersion r) r,
        mv.version = chosenVersion r ∧ "production" ∈ mv.aliases) ∧
      (∀ mv ∈ r, "production" ∈ mv.aliases →
        ∃ mv' ∈ setAliasAdd "production" (chosenVersion r) r,
          mv'.version = mv.version ∧ "production" ∈ mv'.aliases)) := by
  constructor
  · intro dOk r h
    unfold promote
    rw [if_pos h]
  · intro r hne
    refine ⟨?_, ?_, ?_⟩
    · unfold promote
      rw [if_neg hne]
      rfl
    · obtain ⟨x0, hx0s, hx0v⟩ := (chosenVersion_spec r hne).1
      have hx0r : x0 ∈ r := List.mem_of_mem_filter hx0s
      refine ⟨{ x0 with aliases := x0.aliases ++ ["production"] }, ?_, ?_, ?_⟩
      · unfold setAliasAdd
        have hm := List.mem_map_of_mem
          (fun mv => if mv.version = chosenVersion r
            then { mv with aliases := mv.aliases ++ ["production"] } else mv) hx0r
        dsimp only at hm
        rwa [if_pos hx0v] at hm
      · exact hx0v
      · exact List.mem_append_right _ (by simp)
    · intro mv hmv hp
      by_cases h : mv.version = chosenVersion r
      · refine ⟨{ mv with aliases := mv.aliases ++ ["production"] }, ?_, rfl, ?_⟩
        · unfold setAliasAdd
          have hm := List.mem_map_of_mem
            (fun mv => if mv.version = chosenVersion r
              then { mv with aliases := mv.aliases ++ ["production"] } else mv) hmv
          dsimp only at hm
          rwa [if_pos h] at hm
        · exact List.mem_append_left _ hp
      · refine ⟨mv, ?_, rfl, hp⟩
        unfold setAliasAdd
        have hm := List.mem_map_of_mem
          (fun mv => if mv.version = chosenVersion r
            then { mv with aliases := mv.aliases ++ ["production"] } else mv) hmv
        dsimp only at hm
        rwa [if_neg h] at hm

set_option maxRecDepth 1000000 in
/-- Witness for C5: the staging-free registry aborts with the error; on the
demo registry a failed demotion still ends with version 2 aliased
`production` — and, concretely, with the old holder v3 also keeping it (the
two-production inconsistency the spec flags). -/
theorem C5_failure_semantics_witness :
    promote true demoRegNoStaging =
      .error "No model version has an alias starting with staging" ∧
    (promote false demoReg = .ok (setAliasAdd "production" (chosenVersion demoReg) demoReg) ∧
      (∃ mv ∈ setAliasAdd "production" (chosenVersion demoReg) demoReg,
        mv.version = chosenVersion demoReg ∧ "production" ∈ mv.aliases) ∧
      (∀ mv ∈ demoReg, "production" ∈ mv.aliases →
        ∃ mv' ∈ setAliasAdd "production" (chosenVersion demoReg) demoReg,
          mv'.version = mv.version ∧ "production" ∈ mv'.aliases)) ∧
    promote false demoReg =
      .ok [⟨1, ["staging12"]⟩, ⟨2, ["staging99", "production"]⟩, ⟨3, ["production"]⟩] :=
  ⟨C5_failure_semantics.1 true demoRegNoStaging (by with_unfolding_all decide),
   C5_failure_semantics.2 demoReg (by with_unfolding_all decide),
   by with_unfolding_all rfl⟩

end Cricket
